import Mathlib

/-!
Verification of the todo-list store contract of
jamigibbs/todo-list-with-localstorage.

The repository holds two near-identical script files, `src/main.js` and an
unnamed second file (`src/unnamed/part_000`).  Both keep all state in the
browser key-value store under two keys: `todos`, a JSON array of records
with fields id, task and completed, and `uniqueId`, a decimal counter.
Below, the persisted snapshot is embedded as a structure with a natural
counter and a list of records; JSON serialisation of well-formed data is the
identity round-trip, so reading and re-writing the `todos` key is modelled
as working on the list directly.  The DOM side of each handler is embedded
as the small piece of element state the handler actually touches.
-/

/-- One todo record, the shape stored in the `todos` JSON array:
id, task text, completion flag. -/
structure Todo where
  id : Nat
  task : String
  completed : Bool
deriving Repr, DecidableEq

/-- The persisted snapshot: the `uniqueId` counter and the `todos` array. -/
structure Store where
  uniqueId : Nat
  todos : List Todo
deriving Repr, DecidableEq

/-- The snapshot written on first run: counter 0 and an empty array
(`main.js` lines 15-17). -/
def initialStore : Store := ⟨0, []⟩

/-- Function `incrementUniqueId` of `main.js` (lines 153-157): reads the `uniqueId`
key, increments it (string coercion through ToNumber, which on the decimal
numerals the app writes is ordinary numeric increment), writes it back. -/
def incrementUniqueId (s : Store) : Store :=
  { s with uniqueId := s.uniqueId + 1 }

/-- Function `addToStore` of `main.js` (lines 142-151): reads the counter, builds the
record with that id, the given task and completed false, pushes it at the
end of the parsed `todos` array, persists the array, then calls
`incrementUniqueId`. -/
def addToStore (task : String) (s : Store) : Store :=
  let newTodoItem : Todo := ⟨s.uniqueId, task, false⟩
  incrementUniqueId { s with todos := s.todos ++ [newTodoItem] }

/-- The store update inside `toggleEventHandler` (`main.js` lines 113-120
and 130): maps over the parsed array, negating `completed` on every record
whose id matches, and persists the mapped array. -/
def toggleStoreUpdate (id : Nat) (todos : List Todo) : List Todo :=
  todos.map (fun todo =>
    if todo.id = id then { todo with completed := !todo.completed } else todo)

/-- The store update of `removeElement` (`main.js` lines 160-162): keeps
exactly the records whose id differs from the argument and persists the
filtered array; the `uniqueId` key is not touched. -/
def removeElementStore (id : Nat) (s : Store) : Store :=
  { s with todos := s.todos.filter (fun todo => todo.id ≠ id) }

/-- A whole sequence of `addToStore` calls, in call order. -/
def appendAll (tasks : List String) (s : Store) : Store :=
  tasks.foldl (fun st task => addToStore task st) s

/-- Errors a handler can raise: a TypeError from touching a null DOM
reference, a SyntaxError from JSON.parse on malformed input. -/
inductive JsError where
  | typeError
  | syntaxError
deriving Repr, DecidableEq

/-- Function `removeElement` of `main.js` (lines 159-166) in full, store and
DOM: filters the parsed todos array and persists it, then queries the list
item carrying the id as data attribute and removes it from its parent.
When no such item exists the query yields null and the parentNode access
raises a TypeError, after the filtered array has already been persisted.
The DOM list is embedded as the list of data-ids of the rendered items in
display order; the query returns the first match.  Result: persisted array,
DOM list, raised error if any. -/
def removeElement (id : Nat) (todos : List Todo) (dom : List Nat) :
    List Todo × List Nat × Option JsError :=
  let updatedTodos := todos.filter (fun todo => todo.id ≠ id)
  if id ∈ dom then (updatedTodos, dom.erase id, none)
  else (updatedTodos, dom, some JsError.typeError)

/-- Function `toggleEventHandler` of `main.js` (lines 110-131) in full:
reads whether the clicked control carries the checked attribute, looks up
the text span of the item, maps the parsed todos array negating completed
on the matching ids, flips the checked attribute, flips the strike class on
the span, and only then persists the mapped array.  The clicked control
always exists; the span is embedded as an optional strike flag, none when
the span is null.  On a null span the classList access raises a TypeError
after the attribute flip and before the persist, so the original array
stays persisted.  Result: persisted array, checked attribute, strike flag,
raised error if any. -/
def toggleEventHandler (id : Nat) (todos : List Todo) (checked : Bool)
    (strike : Option Bool) : List Todo × Bool × Option Bool × Option JsError :=
  let updatedTodos := toggleStoreUpdate id todos
  match strike with
  | none => (todos, !checked, none, some JsError.typeError)
  | some _ => (updatedTodos, !checked, some (!checked), none)

/-- The persisted completed value recorded for an id: the completed field
of the first record whose id matches. -/
def completedOf (id : Nat) (todos : List Todo) : Option Bool :=
  (todos.find? (fun t => t.id = id)).map Todo.completed

/-- One user action on the store: submit of a task, toggle click, delete
click (the store effect of each handler). -/
inductive Op where
  | add (task : String)
  | toggle (id : Nat)
  | remove (id : Nat)

/-- The store effect of one action. -/
def applyOp (s : Store) : Op → Store
  | Op.add task => addToStore task s
  | Op.toggle id => { s with todos := toggleStoreUpdate id s.todos }
  | Op.remove id => removeElementStore id s

/-- The store reached from the first-run snapshot by a sequence of
actions. -/
def runOps (ops : List Op) : Store := ops.foldl applyOp initialStore

/-- The append-only invariant: ids strictly increasing along the array and
all strictly below the counter. -/
def StoreInv (s : Store) : Prop :=
  (s.todos.map Todo.id).Pairwise (· < ·) ∧ ∀ i ∈ s.todos.map Todo.id, i < s.uniqueId

/-- JSON values, the possible results of JSON.parse.  Numbers are kept as a
mantissa and a power of ten. -/
inductive Json where
  | null
  | bool (b : Bool)
  | num (mantissa : Int) (exp10 : Int)
  | str (s : String)
  | arr (elems : List Json)
  | obj (fields : List (String × Json))

/-- Whitespace accepted by JSON between tokens. -/
def isJsonWs (c : Char) : Bool :=
  c = ' ' ∨ c = '\t' ∨ c = '\n' ∨ c = '\r'

/-- Drop leading JSON whitespace. -/
def skipWs (cs : List Char) : List Char := cs.dropWhile isJsonWs

/-- Value of a digit run. -/
def digitsToNat (ds : List Char) : Nat :=
  ds.foldl (fun n c => 10 * n + (c.toNat - 48)) 0

/-- Hex digit value, for the u escape in JSON strings. -/
def hexVal? (c : Char) : Option Nat :=
  if '0' ≤ c ∧ c ≤ '9' then some (c.toNat - 48)
  else if 'a' ≤ c ∧ c ≤ 'f' then some (c.toNat - 87)
  else if 'A' ≤ c ∧ c ≤ 'F' then some (c.toNat - 55)
  else none

/-- Body of a JSON string after the opening quote: handles the escapes
JSON accepts, rejects raw control characters, stops at the closing quote.
Returns the decoded text and the remainder. -/
def jsonStringBody (cs : List Char) (acc : List Char) : Option (String × List Char) :=
  match cs with
  | [] => none
  | c :: rest =>
    if c = '"' then some (String.mk acc.reverse, rest)
    else if c = '\\' then
      match rest with
      | [] => none
      | e :: rest2 =>
        if e = '"' then jsonStringBody rest2 ('"' :: acc)
        else if e = '\\' then jsonStringBody rest2 ('\\' :: acc)
        else if e = '/' then jsonStringBody rest2 ('/' :: acc)
        else if e = 'b' then jsonStringBody rest2 ('\x08' :: acc)
        else if e = 'f' then jsonStringBody rest2 ('\x0c' :: acc)
        else if e = 'n' then jsonStringBody rest2 ('\n' :: acc)
        else if e = 'r' then jsonStringBody rest2 ('\r' :: acc)
        else if e = 't' then jsonStringBody rest2 ('\t' :: acc)
        else if e = 'u' then
          match rest2 with
          | h1 :: h2 :: h3 :: h4 :: rest3 =>
            match hexVal? h1, hexVal? h2, hexVal? h3, hexVal? h4 with
            | some a, some b, some c2, some d =>
              jsonStringBody rest3
                (Char.ofNat (((a * 16 + b) * 16 + c2) * 16 + d) :: acc)
            | _, _, _, _ => none
          | _ => none
        else none
    else if c.toNat < 32 then none
    else jsonStringBody rest (c :: acc)

/-- Fraction part of a JSON number: a dot must be followed by digits. -/
def jsonFrac (cs : List Char) : Option (List Char × List Char) :=
  match cs with
  | '.' :: rest =>
    let ds := rest.takeWhile Char.isDigit
    if ds.isEmpty then none else some (ds, rest.dropWhile Char.isDigit)
  | _ => some ([], cs)

/-- Exponent part of a JSON number. -/
def jsonExp (cs : List Char) : Option (Int × List Char) :=
  match cs with
  | c :: rest =>
    if c = 'e' ∨ c = 'E' then
      let (sgn, rest2) :=
        match rest with
        | '+' :: r => ((1 : Int), r)
        | '-' :: r => ((-1 : Int), r)
        | _ => ((1 : Int), rest)
      let ds := rest2.takeWhile Char.isDigit
      if ds.isEmpty then none
      else some (sgn * (digitsToNat ds : Int), rest2.dropWhile Char.isDigit)
    else some (0, cs)
  | [] => some (0, [])

/-- JSON number at the head of the input: optional minus, integer part with
no leading zero, optional fraction, optional exponent.  The value denoted
is the mantissa times ten to the exp10. -/
def jsonNumber (cs : List Char) : Option (Json × List Char) :=
  let (neg, cs1) :=
    match cs with
    | '-' :: rest => (true, rest)
    | _ => (false, cs)
  let intDigits := cs1.takeWhile Char.isDigit
  if intDigits.isEmpty then none
  else if 1 < intDigits.length ∧ intDigits.headD ' ' = '0' then none
  else
    let rest1 := cs1.dropWhile Char.isDigit
    match jsonFrac rest1 with
    | none => none
    | some (fracDigits, rest2) =>
      match jsonExp rest2 with
      | none => none
      | some (e, rest3) =>
        let mant : Int := (digitsToNat (intDigits ++ fracDigits) : Int)
        some (Json.num (if neg then -mant else mant) (e - fracDigits.length), rest3)

mutual

/-- One JSON value at the head of the input, leading whitespace already
skipped, by recursive descent with fuel. -/
def jsonValue (fuel : Nat) (cs : List Char) : Option (Json × List Char) :=
  match fuel with
  | 0 => none
  | fuel + 1 =>
    match cs with
    | [] => none
    | c :: rest =>
      if c = 'n' then
        match rest with
        | 'u' :: 'l' :: 'l' :: rest2 => some (Json.null, rest2)
        | _ => none
      else if c = 't' then
        match rest with
        | 'r' :: 'u' :: 'e' :: rest2 => some (Json.bool true, rest2)
        | _ => none
      else if c = 'f' then
        match rest with
        | 'a' :: 'l' :: 's' :: 'e' :: rest2 => some (Json.bool false, rest2)
        | _ => none
      else if c = '"' then
        match jsonStringBody rest [] with
        | some (s, rest2) => some (Json.str s, rest2)
        | none => none
      else if c = '[' then
        match skipWs rest with
        | ']' :: rest3 => some (Json.arr [], rest3)
        | rest2 =>
          match jsonElems fuel rest2 with
          | some (xs, rest3) => some (Json.arr xs, rest3)
          | none => none
      else if c = '\x7b' then
        match skipWs rest with
        | '\x7d' :: rest3 => some (Json.obj [], rest3)
        | rest2 =>
          match jsonMembers fuel rest2 with
          | some (fs, rest3) => some (Json.obj fs, rest3)
          | none => none
      else
        jsonNumber cs

/-- Elements of a JSON array, first element at the head, whitespace already
skipped. -/
def jsonElems (fuel : Nat) (cs : List Char) : Option (List Json × List Char) :=
  match fuel with
  | 0 => none
  | fuel + 1 =>
    match jsonValue fuel cs with
    | none => none
    | some (v, rest) =>
      match skipWs rest with
      | ',' :: rest2 =>
        match jsonElems fuel (skipWs rest2) with
        | some (vs, rest3) => some (v :: vs, rest3)
        | none => none
      | ']' :: rest2 => some ([v], rest2)
      | _ => none

/-- Members of a JSON object, first key at the head, whitespace already
skipped. -/
def jsonMembers (fuel : Nat) (cs : List Char) :
    Option (List (String × Json) × List Char) :=
  match fuel with
  | 0 => none
  | fuel + 1 =>
    match cs with
    | '"' :: rest =>
      match jsonStringBody rest [] with
      | none => none
      | some (k, rest2) =>
        match skipWs rest2 with
        | ':' :: rest3 =>
          match jsonValue fuel (skipWs rest3) with
          | none => none
          | some (v, rest4) =>
            match skipWs rest4 with
            | ',' :: rest5 =>
              match jsonMembers fuel (skipWs rest5) with
              | some (fs, rest6) => some ((k, v) :: fs, rest6)
              | none => none
            | '\x7d' :: rest5 => some ([(k, v)], rest5)
            | _ => none
        | _ => none
    | _ => none

end

/-- Model of JSON.parse: one value surrounded by optional whitespace;
anything else raises a SyntaxError, modelled as none.  The fuel bound
exceeds what any input of this length can consume. -/
def jsonParse (s : String) : Option Json :=
  match jsonValue (4 * s.length + 16) (skipWs s.toList) with
  | some (v, rest) => if skipWs rest = [] then some v else none
  | none => none

/-- Result of the startup block: either the first-run branch that writes
the empty snapshot, or the branch that parses the todos key and renders
each array element. -/
inductive StartupResult where
  | initialized
  | displayed (items : List Json)

/-- A parsed array element of the shape the app itself persists: an object
whose id member is a number (on duplicate keys JSON keeps the last one).
Rendering such an element completes without error: the item.id access
yields the number, whose decimal text makes a well-formed data-id selector
for the lookup in addToggleButton. -/
def recordShaped (j : Json) : Bool :=
  match j with
  | Json.obj fields =>
    match fields.reverse.find? (fun f => f.1 = "id") with
    | some (_, Json.num _ _) => true
    | _ => false
  | _ => false

/-- Error raised while rendering one parsed element through
displayExistingListItem: a null element raises a TypeError at the item.id
access in li.setAttribute inside createListItem (`main.js` line 45); any
other JSON value has its members read as properties, absent ones giving
undefined, and renders without error.  The model takes the data-id selector
built from the stringified id to be well-formed, which holds for every
value the app writes and for every id whose text carries no quote or
backslash character. -/
def renderError? (j : Json) : Option JsError :=
  match j with
  | Json.null => some JsError.typeError
  | _ => none

/-- The forEach over the parsed array (`main.js` line 20): elements are
rendered in order and the first element that raises stops the loop. -/
def renderAll (xs : List Json) : Option JsError :=
  match xs with
  | [] => none
  | j :: rest =>
    match renderError? j with
    | some e => some e
    | none => renderAll rest

/-- Startup block of `main.js` (lines 15-21): when getItem on the todos key
is falsy (the key absent, giving null, or holding the empty string) the
snapshot is initialized to counter 0 and an empty array; otherwise the
stored string is fed to JSON.parse, which raises a SyntaxError on malformed
input and is caught nowhere, the result must be an array for forEach to
exist, a TypeError being raised otherwise, and each element is rendered in
order, a rendering error ending the loop. -/
def startup (stored : Option String) : Except JsError StartupResult :=
  match stored with
  | none => Except.ok StartupResult.initialized
  | some s =>
    if s = "" then Except.ok StartupResult.initialized
    else
      match jsonParse s with
      | none => Except.error JsError.syntaxError
      | some (Json.arr xs) =>
        match renderAll xs with
        | some e => Except.error e
        | none => Except.ok (StartupResult.displayed xs)
      | some _ => Except.error JsError.typeError

/-- The whole client state: the persisted snapshot and the displayed list,
the latter embedded as the data-ids of the rendered list items in document
order. -/
structure AppState where
  store : Store
  dom : List Nat
deriving Repr, DecidableEq

/-- Function `addNewListItem` of `main.js` (lines 80-89) at the level of
store and displayed list: the list item tagged with the current counter is
appended at the end of the displayed list by todoList.appendChild, then
addToStore persists the record and increments the counter. -/
def addNewListItem (task : String) (st : AppState) : AppState :=
  ⟨addToStore task st.store, st.dom ++ [st.store.uniqueId]⟩

/-- One user action on the whole client state: submit appends to store and
view, a toggle click rewrites records in place and leaves the list items
where they are, a delete click runs removeElement on store and view. -/
def applyOpApp (st : AppState) : Op → AppState
  | Op.add task => addNewListItem task st
  | Op.toggle id => ⟨⟨st.store.uniqueId, toggleStoreUpdate id st.store.todos⟩, st.dom⟩
  | Op.remove id =>
    ⟨⟨st.store.uniqueId, (removeElement id st.store.todos st.dom).1⟩,
      (removeElement id st.store.todos st.dom).2.1⟩

/-- The client state reached from the first-run snapshot and the empty
displayed list by a sequence of actions. -/
def runOpsApp (ops : List Op) : AppState := ops.foldl applyOpApp ⟨initialStore, []⟩

/-- ToNumber coercion on the strings the uniqueId key can hold, shared by
both increment implementations: the empty or all-whitespace string gives 0,
a decimal numeral gives its value, anything else gives NaN, modelled as
none.  Negative, fractional and hexadecimal numerals never reach this key,
since every write to it is a natural number; they are mapped to none. -/
def jsToNumber (s : String) : Option Nat :=
  let t := ((s.toList.dropWhile isJsonWs).reverse.dropWhile isJsonWs).reverse
  if t.isEmpty then some 0
  else if t.all Char.isDigit then some (digitsToNat t)
  else none

/-- Counter increment of `main.js` at the persisted-string level (lines
153-157): the stored string is read, the increment operator coerces it
through ToNumber and yields the numeric successor, which is stored; NaN
propagates and is stored as the string NaN. -/
def incrementUniqueIdStr (c : String) : String :=
  match jsToNumber c with
  | some n => toString (n + 1)
  | none => "NaN"

namespace PartZero

/-- Function incrementUniqueId of part_000 (lines 181-184): Number applied
to the stored string, plus one, written back. -/
def incrementUniqueId (s : Store) : Store :=
  { s with uniqueId := s.uniqueId + 1 }

/-- Counter increment of part_000 at the persisted-string level (lines
181-184): Number is the same ToNumber coercion, and NaN plus one stays NaN
and is stored as the string NaN. -/
def incrementUniqueIdStr (c : String) : String :=
  match jsToNumber c with
  | some n => toString (n + 1)
  | none => "NaN"

/-- Function addToStore of part_000 (lines 165-174): same text as in
main.js. -/
def addToStore (task : String) (s : Store) : Store :=
  let newTodoItem : Todo := ⟨s.uniqueId, task, false⟩
  PartZero.incrementUniqueId { s with todos := s.todos ++ [newTodoItem] }

/-- Store update of toggleEventHandler of part_000 (lines 119-128). -/
def toggleStoreUpdate (id : Nat) (todos : List Todo) : List Todo :=
  todos.map (fun todo =>
    if todo.id = id then { todo with completed := !todo.completed } else todo)

/-- Function toggleEventHandler of part_000 (lines 118-140) in full: unlike
main.js it persists the mapped array first and only then touches the DOM,
so on a null span the TypeError is raised after the persist and the mapped
array stays persisted. -/
def toggleEventHandler (id : Nat) (todos : List Todo) (checked : Bool)
    (strike : Option Bool) : List Todo × Bool × Option Bool × Option JsError :=
  let updatedTodos := PartZero.toggleStoreUpdate id todos
  match strike with
  | none => (updatedTodos, !checked, none, some JsError.typeError)
  | some _ => (updatedTodos, !checked, some (!checked), none)

/-- Store update of removeElement of part_000 (lines 192-194). -/
def removeElementStore (id : Nat) (s : Store) : Store :=
  { s with todos := s.todos.filter (fun todo => todo.id ≠ id) }

/-- Function removeElement of part_000 (lines 191-198), store and DOM: same
text as in main.js. -/
def removeElement (id : Nat) (todos : List Todo) (dom : List Nat) :
    List Todo × List Nat × Option JsError :=
  let updatedTodos := todos.filter (fun todo => todo.id ≠ id)
  if id ∈ dom then (updatedTodos, dom.erase id, none)
  else (updatedTodos, dom, some JsError.typeError)

end PartZero

-- Basic facts used by several claims.

lemma addToStore_todos (task : String) (s : Store) :
    (addToStore task s).todos = s.todos ++ [⟨s.uniqueId, task, false⟩] := rfl

lemma addToStore_uniqueId (task : String) (s : Store) :
    (addToStore task s).uniqueId = s.uniqueId + 1 := rfl

lemma storeInv_initial : StoreInv initialStore := by
  constructor
  · simp [initialStore]
  · intro i hi; simp [initialStore] at hi

lemma storeInv_addToStore (task : String) (s : Store) (h : StoreInv s) :
    StoreInv (addToStore task s) := by
  obtain ⟨hpw, hlt⟩ := h
  constructor
  · simp only [addToStore_todos, List.map_append, List.map_cons, List.map_nil]
    rw [List.pairwise_append]
    refine ⟨hpw, by simp, ?_⟩
    intro a ha b hb
    simp at hb
    subst hb
    exact hlt a ha
  · intro i hi
    simp only [addToStore_todos, List.map_append, List.map_cons, List.map_nil,
      List.mem_append, List.mem_singleton] at hi
    rcases hi with hi | hi
    · exact Nat.lt_succ_of_lt (hlt i hi)
    · subst hi; exact Nat.lt_succ_self _

lemma appendAll_storeInv (tasks : List String) (s : Store) (h : StoreInv s) :
    StoreInv (appendAll tasks s) := by
  induction tasks generalizing s with
  | nil => exact h
  | cons t ts ih => exact ih (addToStore t s) (storeInv_addToStore t s h)

/-- C1: along any sequence of addToStore calls from the first-run snapshot,
the issued ids are strictly increasing in call order, hence pairwise
distinct, and the persisted counter stays strictly above every issued id.
In an append-only run the issued ids are exactly the ids in the array. -/
theorem appendAll_ids_distinct_increasing_bounded (tasks : List String) :
    ((appendAll tasks initialStore).todos.map Todo.id).Pairwise (· < ·) ∧
    ((appendAll tasks initialStore).todos.map Todo.id).Nodup ∧
    ∀ i ∈ (appendAll tasks initialStore).todos.map Todo.id,
      i < (appendAll tasks initialStore).uniqueId := by
  obtain ⟨hpw, hlt⟩ := appendAll_storeInv tasks initialStore storeInv_initial
  exact ⟨hpw, hpw.imp (fun h => Nat.ne_of_lt h), hlt⟩

/-- C2: addToStore builds the record from the current counter, the given
task and completed false, appends it at the end leaving the existing
records unchanged, and increments the counter by one; on the first-run
snapshot, appending the task Buy milk gives the record with id 0, a
one-record array and counter 1. -/
theorem addToStore_spec (s : Store) (task : String) :
    (addToStore task s).todos = s.todos ++ [⟨s.uniqueId, task, false⟩] ∧
    (addToStore task s).uniqueId = s.uniqueId + 1 ∧
    addToStore "Buy milk" initialStore = ⟨1, [⟨0, "Buy milk", false⟩]⟩ :=
  ⟨rfl, rfl, rfl⟩

/-- C3: on an array with pairwise distinct ids, removing a present id
deletes exactly that record, keeping every other record unchanged in place
and shrinking the length by one; removing an absent id changes nothing; the
counter is untouched either way, so a subsequent append still issues the
old counter value as its id. -/
theorem removeElementStore_removes_exactly_one (s : Store) (id : Nat) (task : String)
    (hu : (s.todos.map Todo.id).Nodup) :
    ((∃ t ∈ s.todos, t.id = id) →
      ∃ l1 t l2, s.todos = l1 ++ t :: l2 ∧ t.id = id ∧
        (removeElementStore id s).todos = l1 ++ l2 ∧
        (removeElementStore id s).todos.length + 1 = s.todos.length) ∧
    ((∀ t ∈ s.todos, t.id ≠ id) → (removeElementStore id s).todos = s.todos) ∧
    (removeElementStore id s).uniqueId = s.uniqueId ∧
    (addToStore task (removeElementStore id s)).todos =
      (removeElementStore id s).todos ++ [⟨s.uniqueId, task, false⟩] := by
  refine ⟨?_, ?_, rfl, rfl⟩
  · rintro ⟨t, ht, hid⟩
    obtain ⟨l1, l2, hs⟩ := List.append_of_mem ht
    have hu2 := hu
    rw [hs] at hu2
    simp only [List.map_append, List.map_cons] at hu2
    rw [List.nodup_append] at hu2
    obtain ⟨-, hn2, hdisj⟩ := hu2
    have h1 : ∀ x ∈ l1, x.id ≠ id := by
      intro x hx hxid
      exact hdisj (List.mem_map_of_mem Todo.id hx)
        (by rw [hxid, hid]; exact List.mem_cons_self _ _)
    have h2 : ∀ x ∈ l2, x.id ≠ id := by
      intro x hx hxid
      rw [List.nodup_cons] at hn2
      exact hn2.1 (by rw [hid, ← hxid]; exact List.mem_map_of_mem Todo.id hx)
    have hfil : (removeElementStore id s).todos = l1 ++ l2 := by
      simp only [removeElementStore, hs, List.filter_append, List.filter_cons]
      rw [List.filter_eq_self.mpr (by intro a ha; simpa using h1 a ha),
        List.filter_eq_self.mpr (by intro a ha; simpa using h2 a ha)]
      simp [hid]
    refine ⟨l1, t, l2, hs, hid, hfil, ?_⟩
    rw [hfil, hs]
    simp only [List.length_append, List.length_cons]
    omega
  · intro h
    simp only [removeElementStore]
    exact List.filter_eq_self.mpr (by intro a ha; simpa using h a ha)

/-- Witness for C3 at a concrete two-record store. -/
theorem removeElementStore_removes_exactly_one_witness :
    (removeElementStore 0 ⟨2, [⟨0, "a", false⟩, ⟨1, "b", true⟩]⟩).todos.length + 1 = 2 ∧
    (removeElementStore 0 ⟨2, [⟨0, "a", false⟩, ⟨1, "b", true⟩]⟩).uniqueId = 2 := by
  have h := removeElementStore_removes_exactly_one
    ⟨2, [⟨0, "a", false⟩, ⟨1, "b", true⟩]⟩ 0 "c" (by decide)
  refine ⟨?_, h.2.2.1⟩
  obtain ⟨l1, t, l2, -, -, -, hlen⟩ := h.1 ⟨⟨0, "a", false⟩, by simp, rfl⟩
  simpa using hlen

/-- C4 counterexample: removing an id with no record and no DOM item does
not complete silently; the parentNode access on the null query result
raises a TypeError. -/
theorem removeElement_absent_raises_counterexample :
    (removeElement 0 [] []).2.2 = some JsError.typeError := rfl

lemma removeElement_fst (id : Nat) (todos : List Todo) (dom : List Nat) :
    (removeElement id todos dom).1 = todos.filter (fun todo => todo.id ≠ id) := by
  by_cases h : id ∈ dom <;> simp [removeElement, h]

/-- C4 amended: the store update of removeElement is error-free and
idempotent for every id, present or absent, and an absent id leaves the
persisted array unchanged; but the whole handler completes without raising
exactly when a DOM item with that id exists, raising a TypeError
otherwise. -/
theorem removeElement_amended_spec (id : Nat) (todos : List Todo) (dom dom2 : List Nat) :
    ((∀ t ∈ todos, t.id ≠ id) → (removeElement id todos dom).1 = todos) ∧
    (removeElement id (removeElement id todos dom).1 dom2).1 =
      (removeElement id todos dom).1 ∧
    ((removeElement id todos dom).2.2 = none ↔ id ∈ dom) := by
  refine ⟨?_, ?_, ?_⟩
  · intro h
    rw [removeElement_fst]
    exact List.filter_eq_self.mpr (by intro a ha; simpa using h a ha)
  · rw [removeElement_fst, removeElement_fst]
    exact List.filter_eq_self.mpr (fun a ha => (List.mem_filter.mp ha).2)
  · by_cases h : id ∈ dom <;> simp [removeElement, h]

/-- Witness for C4 amended at a concrete input. -/
theorem removeElement_amended_spec_witness :
    (removeElement 5 [] []).1 = [] ∧
    ¬((removeElement 5 [] []).2.2 = none) := by
  have h := removeElement_amended_spec 5 [] [] []
  exact ⟨h.1 (by simp), fun hc => by simpa using h.2.2.mp hc⟩

/-- C5 counterexample: a persisted todos value that is present and not
parseable as JSON is not treated as an empty store; startup raises an
uncaught SyntaxError from JSON.parse. -/
theorem startup_unparseable_counterexample :
    startup (some "x") = Except.error JsError.syntaxError ∧ "x" ≠ "" :=
  ⟨rfl, by decide⟩

lemma renderAll_eq_none (xs : List Json) (h : xs.all recordShaped = true) :
    renderAll xs = none := by
  induction xs with
  | nil => rfl
  | cons j rest ih =>
    simp only [List.all_cons, Bool.and_eq_true] at h
    have hj : renderError? j = none := by
      cases j <;> simp_all [recordShaped, renderError?]
    simp [renderAll, hj, ih h.2]

lemma renderAll_null_seg (l1 l2 : List Json) (h : l1.all recordShaped = true) :
    renderAll (l1 ++ Json.null :: l2) = some JsError.typeError := by
  induction l1 with
  | nil => rfl
  | cons j rest ih =>
    simp only [List.all_cons, Bool.and_eq_true] at h
    have hj : renderError? j = none := by
      cases j <;> simp_all [recordShaped, renderError?]
    simp only [List.cons_append, renderAll, hj]
    exact ih h.2

/-- C5 amended: an absent todos key, or one holding the empty string (both
falsy), is treated as the empty store without error; a present nonempty
value that does not parse as JSON raises an uncaught SyntaxError; a parsed
non-array raises a TypeError at forEach; an array of record-shaped
elements, objects carrying a numeric id as every record the app persists
is, has its tasks displayed without error; an array reaching a null
element after record-shaped ones raises a TypeError at the item.id access
while rendering it; and tasks are displayed only for values parsing to a
JSON array, the displayed items being its elements. -/
theorem startup_amended_spec (s : String) (xs : List Json) (j : Json) :
    startup none = Except.ok StartupResult.initialized ∧
    startup (some "") = Except.ok StartupResult.initialized ∧
    (s ≠ "" → jsonParse s = none →
      startup (some s) = Except.error JsError.syntaxError) ∧
    (s ≠ "" → jsonParse s = some j → (∀ ys, j ≠ Json.arr ys) →
      startup (some s) = Except.error JsError.typeError) ∧
    (s ≠ "" → jsonParse s = some (Json.arr xs) → xs.all recordShaped = true →
      startup (some s) = Except.ok (StartupResult.displayed xs)) ∧
    (s ≠ "" → jsonParse s = some (Json.arr xs) →
      ∀ l1 l2, xs = l1 ++ Json.null :: l2 → l1.all recordShaped = true →
        startup (some s) = Except.error JsError.typeError) ∧
    (startup (some s) = Except.ok (StartupResult.displayed xs) →
      s ≠ "" ∧ jsonParse s = some (Json.arr xs)) := by
  refine ⟨rfl, rfl, ?_, ?_, ?_, ?_, ?_⟩
  · intro hne hp
    simp [startup, hne, hp]
  · intro hne hp hj
    cases j with
    | arr ys => exact absurd rfl (hj ys)
    | null => simp [startup, hne, hp]
    | bool b => simp [startup, hne, hp]
    | num m e => simp [startup, hne, hp]
    | str t => simp [startup, hne, hp]
    | obj fs => simp [startup, hne, hp]
  · intro hne hp hall
    simp [startup, hne, hp, renderAll_eq_none xs hall]
  · intro hne hp l1 l2 hxs hall
    subst hxs
    simp [startup, hne, hp, renderAll_null_seg l1 l2 hall]
  · intro h
    by_cases hne : s = ""
    · rw [hne] at h
      simp [startup] at h
    · refine ⟨hne, ?_⟩
      simp only [startup, if_neg hne] at h
      cases hp : jsonParse s with
      | none => rw [hp] at h; simp at h
      | some jv =>
        rw [hp] at h
        cases jv with
        | arr ys =>
          have h2 : (match renderAll ys with
              | some e => Except.error e
              | none => Except.ok (StartupResult.displayed ys)) =
              Except.ok (StartupResult.displayed xs) := h
          cases hra : renderAll ys with
          | some e => rw [hra] at h2; simp at h2
          | none =>
            rw [hra] at h2
            simp only [Except.ok.injEq, StartupResult.displayed.injEq] at h2
            rw [h2]
        | null => simp at h
        | bool b => simp at h
        | num m e => simp at h
        | str t => simp at h
        | obj fs => simp at h

/-- Witness for C5 amended at concrete stored values, one per clause. -/
theorem startup_amended_spec_witness :
    startup (some "x") = Except.error JsError.syntaxError ∧
    startup (some "5") = Except.error JsError.typeError ∧
    startup (some "[\x7b\"id\":0\x7d]") =
      Except.ok (StartupResult.displayed [Json.obj [("id", Json.num 0 0)]]) ∧
    startup (some "[null]") = Except.error JsError.typeError ∧
    startup none = Except.ok StartupResult.initialized := by
  have h1 := startup_amended_spec "x" [] Json.null
  have h2 := startup_amended_spec "5" [] (Json.num 5 0)
  have h3 := startup_amended_spec "[\x7b\"id\":0\x7d]"
    [Json.obj [("id", Json.num 0 0)]] Json.null
  have h4 := startup_amended_spec "[null]" [Json.null] Json.null
  refine ⟨h1.2.2.1 (by decide) rfl, ?_, ?_, ?_, h1.1⟩
  · exact h2.2.2.2.1 (by decide) rfl (by intro ys; simp)
  · exact h3.2.2.2.2.1 (by decide) rfl rfl
  · exact h4.2.2.2.2.2.1 (by decide) rfl [] [] rfl rfl

lemma toggleStoreUpdate_toggleStoreUpdate (id : Nat) (todos : List Todo) :
    toggleStoreUpdate id (toggleStoreUpdate id todos) = todos := by
  induction todos with
  | nil => rfl
  | cons hd tl ih =>
    by_cases ht : hd.id = id
    · cases hd
      simp_all [toggleStoreUpdate]
    · simp_all [toggleStoreUpdate]

/-- C6: toggling an id twice through the store update restores the original
array, and one toggle changes no record at a position whose id differs. -/
theorem toggleStoreUpdate_double_restores (id : Nat) (todos : List Todo)
    (_hu : (todos.map Todo.id).Nodup) (_hp : ∃ t ∈ todos, t.id = id) :
    toggleStoreUpdate id (toggleStoreUpdate id todos) = todos ∧
    (toggleStoreUpdate id todos).length = todos.length ∧
    ∀ (i : Nat) (t : Todo), todos[i]? = some t → t.id ≠ id →
      (toggleStoreUpdate id todos)[i]? = some t := by
  refine ⟨toggleStoreUpdate_toggleStoreUpdate id todos, by simp [toggleStoreUpdate], ?_⟩
  intro i t hi ht
  rw [toggleStoreUpdate, List.getElem?_map, hi]
  simp [ht]

/-- Witness for C6 at a concrete two-record store. -/
theorem toggleStoreUpdate_double_restores_witness :
    toggleStoreUpdate 0 (toggleStoreUpdate 0 [⟨0, "a", false⟩, ⟨1, "b", true⟩]) =
      [⟨0, "a", false⟩, ⟨1, "b", true⟩] :=
  (toggleStoreUpdate_double_restores 0 [⟨0, "a", false⟩, ⟨1, "b", true⟩]
    (by decide) ⟨⟨0, "a", false⟩, by simp, rfl⟩).1

lemma find?_toggleStoreUpdate (id : Nat) (todos : List Todo) (t : Todo)
    (h : todos.find? (fun x => x.id = id) = some t) :
    (toggleStoreUpdate id todos).find? (fun x => x.id = id) =
      some { t with completed := !t.completed } := by
  induction todos with
  | nil => simp [List.find?] at h
  | cons hd tl ih =>
    by_cases hh : hd.id = id
    · simp only [toggleStoreUpdate, List.map_cons] at *
      rw [List.find?_cons_of_pos _ (by simpa using hh)] at h
      rw [List.find?_cons_of_pos _ (by simp [hh])]
      cases h
      simp [hh]
    · simp only [toggleStoreUpdate, List.map_cons] at *
      rw [List.find?_cons_of_neg _ (by simpa using hh)] at h
      rw [List.find?_cons_of_neg _ (by simp [hh])]
      exact ih h

/-- C7: when the checked indicator and the strike class agree with the
persisted completed value for an id before the toggle click, then after the
handler runs the persisted value for that id is flipped and the checked
indicator and the strike class both equal it again, with no error
raised. -/
theorem toggleEventHandler_view_store_agreement (id : Nat) (todos : List Todo)
    (c : Bool) (hc : completedOf id todos = some c) :
    completedOf id (toggleEventHandler id todos c (some c)).1 = some (!c) ∧
    (toggleEventHandler id todos c (some c)).2.1 = !c ∧
    (toggleEventHandler id todos c (some c)).2.2.1 = some (!c) ∧
    (toggleEventHandler id todos c (some c)).2.2.2 = none := by
  refine ⟨?_, rfl, rfl, rfl⟩
  obtain ⟨t, ht, htc⟩ : ∃ t, todos.find? (fun x => x.id = id) = some t ∧
      t.completed = c := by
    rw [completedOf] at hc
    cases hf : todos.find? (fun x => x.id = id) with
    | none => rw [hf] at hc; simp at hc
    | some t => rw [hf] at hc; exact ⟨t, rfl, by simpa using hc⟩
  show completedOf id (toggleStoreUpdate id todos) = some (!c)
  rw [completedOf, find?_toggleStoreUpdate id todos t ht]
  simp [htc]

/-- Witness for C7 at a concrete one-record store. -/
theorem toggleEventHandler_view_store_agreement_witness :
    completedOf 0 (toggleEventHandler 0 [⟨0, "a", false⟩] false (some false)).1 =
      some true := by
  have h := toggleEventHandler_view_store_agreement 0 [⟨0, "a", false⟩] false rfl
  simpa using h.1

/-- C8: when no record has the given id, the store update of the toggle
handler persists the array unchanged, whatever the DOM state of the clicked
item is. -/
theorem toggleStoreUpdate_absent_id_noop (id : Nat) (todos : List Todo)
    (h : ∀ t ∈ todos, t.id ≠ id) :
    toggleStoreUpdate id todos = todos ∧
    ∀ (checked : Bool) (strike : Option Bool),
      (toggleEventHandler id todos checked strike).1 = todos := by
  have hA : toggleStoreUpdate id todos = todos := by
    induction todos with
    | nil => rfl
    | cons hd tl ih =>
      simp only [toggleStoreUpdate, List.map_cons] at *
      rw [if_neg (h hd (by simp)), ih (fun t htl => h t (by simp [htl]))]
  refine ⟨hA, ?_⟩
  intro checked strike
  cases strike with
  | none => rfl
  | some b => exact hA

/-- Witness for C8 at a concrete store and an absent id. -/
theorem toggleStoreUpdate_absent_id_noop_witness :
    toggleStoreUpdate 7 [⟨0, "a", false⟩] = [⟨0, "a", false⟩] :=
  (toggleStoreUpdate_absent_id_noop 7 [⟨0, "a", false⟩] (by decide)).1

lemma toggleStoreUpdate_ids (id : Nat) (todos : List Todo) :
    (toggleStoreUpdate id todos).map Todo.id = todos.map Todo.id := by
  induction todos with
  | nil => rfl
  | cons hd tl ih =>
    by_cases hh : hd.id = id <;>
      simp only [toggleStoreUpdate, List.map_cons] at * <;> rw [ih] <;> simp [hh]

lemma storeInv_applyOp (op : Op) (s : Store) (h : StoreInv s) :
    StoreInv (applyOp s op) := by
  obtain ⟨hpw, hlt⟩ := h
  cases op with
  | add task => exact storeInv_addToStore task s ⟨hpw, hlt⟩
  | toggle id =>
    constructor
    · show ((toggleStoreUpdate id s.todos).map Todo.id).Pairwise (· < ·)
      rw [toggleStoreUpdate_ids]; exact hpw
    · show ∀ i ∈ (toggleStoreUpdate id s.todos).map Todo.id, i < s.uniqueId
      rw [toggleStoreUpdate_ids]; exact hlt
  | remove id =>
    have hsub : ((removeElementStore id s).todos.map Todo.id).Sublist
        (s.todos.map Todo.id) :=
      List.Sublist.map Todo.id (List.filter_sublist s.todos)
    exact ⟨hpw.sublist hsub, fun i hi => hlt i (hsub.mem hi)⟩

lemma removeElement_dom (id : Nat) (todos : List Todo) (dom : List Nat) :
    (removeElement id todos dom).2.1 = dom.erase id := by
  by_cases h : id ∈ dom
  · simp [removeElement, h]
  · simp [removeElement, h, List.erase_of_not_mem h]

lemma map_id_filter (id : Nat) (todos : List Todo) :
    (todos.filter (fun todo => todo.id ≠ id)).map Todo.id =
      (todos.map Todo.id).filter (fun n => n ≠ id) := by
  induction todos with
  | nil => rfl
  | cons hd tl ih =>
    by_cases hh : hd.id = id
    · simp only [List.map_cons, List.filter_cons]
      rw [if_neg (by simp [hh]), if_neg (by simp [hh])]
      exact ih
    · simp only [List.map_cons, List.filter_cons]
      rw [if_pos (by simp [hh]), if_pos (by simp [hh])]
      simp only [List.map_cons]
      rw [ih]

lemma appInv_applyOpApp (op : Op) (st : AppState)
    (h : StoreInv st.store ∧ st.dom = st.store.todos.map Todo.id) :
    StoreInv (applyOpApp st op).store ∧
      (applyOpApp st op).dom = (applyOpApp st op).store.todos.map Todo.id := by
  obtain ⟨hs, hd⟩ := h
  cases op with
  | add task =>
    refine ⟨storeInv_addToStore task st.store hs, ?_⟩
    show st.dom ++ [st.store.uniqueId] = (addToStore task st.store).todos.map Todo.id
    simp [addToStore_todos, hd]
  | toggle id =>
    refine ⟨storeInv_applyOp (Op.toggle id) st.store hs, ?_⟩
    show st.dom = (toggleStoreUpdate id st.store.todos).map Todo.id
    rw [toggleStoreUpdate_ids]
    exact hd
  | remove id =>
    have hfst := removeElement_fst id st.store.todos st.dom
    have hnd : (st.store.todos.map Todo.id).Nodup :=
      hs.1.imp fun hlt2 => Nat.ne_of_lt hlt2
    constructor
    · show StoreInv ⟨st.store.uniqueId, (removeElement id st.store.todos st.dom).1⟩
      rw [hfst]
      exact storeInv_applyOp (Op.remove id) st.store hs
    · show (removeElement id st.store.todos st.dom).2.1 =
        (removeElement id st.store.todos st.dom).1.map Todo.id
      rw [removeElement_dom, hfst, hd, List.Nodup.erase_eq_filter hnd id,
        map_id_filter]
      exact List.filter_congr (by intro a _; by_cases ha : a = id <;> simp [ha])

lemma runOpsApp_store (ops : List Op) : (runOpsApp ops).store = runOps ops := by
  suffices h : ∀ (l : List Op) (st : AppState),
      (l.foldl applyOpApp st).store = l.foldl applyOp st.store from
    h ops ⟨initialStore, []⟩
  intro l
  induction l with
  | nil => intro st; rfl
  | cons op l ih =>
    intro st
    rw [List.foldl_cons, List.foldl_cons, ih]
    have : (applyOpApp st op).store = applyOp st.store op := by
      cases op with
      | add task => rfl
      | toggle id => rfl
      | remove id =>
        simp [applyOpApp, applyOp, removeElementStore, removeElement_fst]
    rw [this]

/-- C9: every operation preserves insertion order: addToStore places the
new record last, the toggle store update keeps the id sequence unchanged in
place, the remove store update keeps a subsequence; in every store
reachable by any sequence of actions from the first-run snapshot the
surviving ids are strictly increasing along the array, that is, the
surviving records stand in the order in which they were appended; and in
every reachable client state the displayed id list equals the stored id
list in order, so store order is display order. -/
theorem ops_preserve_insertion_order (ops : List Op) :
    (∀ (s : Store) (task : String),
      (addToStore task s).todos = s.todos ++ [⟨s.uniqueId, task, false⟩]) ∧
    (∀ (id : Nat) (todos : List Todo),
      (toggleStoreUpdate id todos).map Todo.id = todos.map Todo.id) ∧
    (∀ (id : Nat) (s : Store),
      (removeElementStore id s).todos.Sublist s.todos) ∧
    ((runOps ops).todos.map Todo.id).Pairwise (· < ·) ∧
    (runOpsApp ops).store = runOps ops ∧
    (runOpsApp ops).dom = (runOps ops).todos.map Todo.id := by
  have hrun : ∀ (l : List Op) (s : Store), StoreInv s → StoreInv (l.foldl applyOp s) := by
    intro l
    induction l with
    | nil => exact fun s h => h
    | cons op l ih => exact fun s h => ih (applyOp s op) (storeInv_applyOp op s h)
  have happ : ∀ (l : List Op) (st : AppState),
      StoreInv st.store ∧ st.dom = st.store.todos.map Todo.id →
      StoreInv (l.foldl applyOpApp st).store ∧
        (l.foldl applyOpApp st).dom =
          (l.foldl applyOpApp st).store.todos.map Todo.id := by
    intro l
    induction l with
    | nil => exact fun st h => h
    | cons op l ih => exact fun st h => ih (applyOpApp st op) (appInv_applyOpApp op st h)
  refine ⟨fun s task => rfl, toggleStoreUpdate_ids,
    fun id s => List.filter_sublist s.todos,
    (hrun ops initialStore storeInv_initial).1, runOpsApp_store ops, ?_⟩
  have h := (happ ops ⟨initialStore, []⟩ ⟨storeInv_initial, rfl⟩).2
  calc (runOpsApp ops).dom
      = (runOpsApp ops).store.todos.map Todo.id := h
    _ = (runOps ops).todos.map Todo.id := by rw [runOpsApp_store]

/-- C10: the store layer of the two source files is the same function: the
counter increments, even at the level of the persisted counter string where
main.js relies on ToNumber coercion while part_000 applies Number
explicitly, the appends, the toggle store updates, the full toggle handlers
on a present span (the paths on which both persist; with an absent span
they differ only in whether the already computed array was persisted before
the TypeError), and the removals agree on every input. -/
theorem two_files_equivalent :
    (∀ c : String, incrementUniqueIdStr c = PartZero.incrementUniqueIdStr c) ∧
    (∀ s : Store, incrementUniqueId s = PartZero.incrementUniqueId s) ∧
    (∀ (task : String) (s : Store), addToStore task s = PartZero.addToStore task s) ∧
    (∀ (id : Nat) (todos : List Todo),
      toggleStoreUpdate id todos = PartZero.toggleStoreUpdate id todos) ∧
    (∀ (id : Nat) (todos : List Todo) (checked strikeVal : Bool),
      toggleEventHandler id todos checked (some strikeVal) =
        PartZero.toggleEventHandler id todos checked (some strikeVal)) ∧
    (∀ (id : Nat) (s : Store),
      removeElementStore id s = PartZero.removeElementStore id s) ∧
    (∀ (id : Nat) (todos : List Todo) (dom : List Nat),
      removeElement id todos dom = PartZero.removeElement id todos dom) :=
  ⟨fun _ => rfl, fun _ => rfl, fun _ _ => rfl, fun _ _ => rfl,
    fun _ _ _ _ => rfl, fun _ _ => rfl, fun _ _ _ => rfl⟩
